import Mathlib

/-!
# Quantum Veil — Privacy Protection Engine: verification development

Shallow embedding of the repository's TypeScript privacy core:

* `src/client/typescript/src/crypto.ts` — AES-256-GCM `encrypt` / `decrypt`
  over the wire layout `[iv(16)][tag(16)][ciphertext]`;
* `src/client/typescript/src/crypto/encryption.ts` — `encryptChaCha20` /
  `decryptChaCha20` with layout `[nonce(12)][tag(16)][ciphertext]` and the
  catch-and-retry fallback to AES-GCM;
* `GlitchGangPrivacyClient` — `protectMetadata`, `getSensitiveAttributes`,
  `decryptMetadata`, `applyVrmPrivacyMask`, `isViewerTrusted` and the
  per-field noise generators.

Bytes are modelled as `Nat` (values kept below 256 where the arguments
require it), buffers as `List Nat`, and the behavioral-frame scalars as
real numbers.  The AEAD primitives of Node's `crypto` module are external
to this repository; they are modelled, per the spec's Attribute Encryptor
contract, as a stream cipher (keystream XOR) together with an ideal
collision-free authentication tag: decryption succeeds exactly when the
tag recomputed from the record's own nonce and ciphertext matches the tag
stored in the record.
-/

namespace QuantumVeil

/-! ## Byte-buffer primitives -/

/-- Base-256 value of a little-endian byte list; used only to build the
ideal authentication tag.  Injective on fixed-length lists of bytes. -/
def bytesToNat : List Nat → Nat
  | [] => 0
  | b :: rest => b + 256 * bytesToNat rest

/-- Injective encoding of a whole byte list (length paired with value), so
that distinct byte lists of any lengths get distinct codes. -/
def encBytes (l : List Nat) : Nat :=
  Nat.pair l.length (bytesToNat l)

theorem bytesToNat_inj : ∀ {l₁ l₂ : List Nat}, l₁.length = l₂.length →
    (∀ b ∈ l₁, b < 256) → (∀ b ∈ l₂, b < 256) →
    bytesToNat l₁ = bytesToNat l₂ → l₁ = l₂
  | [], [], _, _, _, _ => rfl
  | b₁ :: r₁, b₂ :: r₂, hlen, h₁, h₂, heq => by
    have hb₁ : b₁ < 256 := h₁ b₁ (List.mem_cons_self _ _)
    have hb₂ : b₂ < 256 := h₂ b₂ (List.mem_cons_self _ _)
    simp only [bytesToNat] at heq
    have hb : b₁ = b₂ := by omega
    have hr : bytesToNat r₁ = bytesToNat r₂ := by omega
    have : r₁ = r₂ :=
      bytesToNat_inj (by simpa using hlen)
        (fun b hb => h₁ b (List.mem_cons_of_mem _ hb))
        (fun b hb => h₂ b (List.mem_cons_of_mem _ hb)) hr
    simp [hb, this]

theorem encBytes_inj {l₁ l₂ : List Nat}
    (h₁ : ∀ b ∈ l₁, b < 256) (h₂ : ∀ b ∈ l₂, b < 256)
    (heq : encBytes l₁ = encBytes l₂) : l₁ = l₂ := by
  unfold encBytes at heq
  rw [Nat.pair_eq_pair] at heq
  exact bytesToNat_inj heq.1 h₁ h₂ heq.2

/-- XOR a byte list against a keystream, starting at stream index `i`.
Models the CTR-mode / stream-cipher body of both AEAD ciphers. -/
def xorKs (ks : Nat → Nat) : Nat → List Nat → List Nat
  | _, [] => []
  | i, b :: rest => (b ^^^ ks i) :: xorKs ks (i + 1) rest

theorem xorKs_length (ks : Nat → Nat) : ∀ (i : Nat) (l : List Nat),
    (xorKs ks i l).length = l.length
  | _, [] => rfl
  | i, _ :: rest => by simp [xorKs, xorKs_length ks (i + 1) rest]

theorem xorKs_xorKs (ks : Nat → Nat) : ∀ (i : Nat) (l : List Nat),
    xorKs ks i (xorKs ks i l) = l
  | _, [] => rfl
  | i, b :: rest => by
    simp [xorKs, Nat.xor_assoc, xorKs_xorKs ks (i + 1) rest]

theorem xorKs_lt_256 (ks : Nat → Nat) (hks : ∀ i, ks i < 256) :
    ∀ (i : Nat) (l : List Nat), (∀ b ∈ l, b < 256) →
    ∀ b ∈ xorKs ks i l, b < 256
  | _, [], _, b, hb => by simp [xorKs] at hb
  | i, x :: rest, h, b, hb => by
    simp only [xorKs, List.mem_cons] at hb
    rcases hb with hb | hb
    · subst hb
      have hx : x < 2 ^ 8 := h x (List.mem_cons_self _ _)
      have hk : ks i < 2 ^ 8 := hks i
      exact Nat.bitwise_lt_two_pow hx hk
    · exact xorKs_lt_256 ks hks (i + 1) rest
        (fun b hb => h b (List.mem_cons_of_mem _ hb)) b hb

/-! ## AEAD model (Node `crypto` module, external to the repository)

`crypto.createCipheriv`/`createDecipheriv` with `aes-256-gcm` and
`chacha20-poly1305` are library primitives, not repository code.  They are
modelled as stream ciphers with an ideal tag: the 16-byte tag's first cell
carries an injective code of (cipher, key, nonce, ciphertext), so a record
authenticates exactly when its tag was produced by the same cipher over the
same key, nonce and ciphertext — the spec's AEAD contract (tag mismatch on
tampering, wrong key, or wrong cipher). -/

/-- Error taxonomy relevant to the Encryptor: `decipher.final()` throws on
tag mismatch, surfaced here as `authenticationError`. -/
inductive CryptoError where
  | authenticationError
deriving DecidableEq, Repr

/-- Model keystream for AES-256-GCM (CTR mode): an arbitrary fixed
byte-valued function of key, IV, and stream position. -/
def aesKeystream (key iv : List Nat) (i : Nat) : Nat :=
  (bytesToNat key + bytesToNat iv + i) % 256

/-- Model keystream for ChaCha20, distinct from the AES keystream. -/
def chachaKeystream (key nonce : List Nat) (i : Nat) : Nat :=
  (2 * bytesToNat key + bytesToNat nonce + 3 * i + 1) % 256

/-- Ideal 16-byte authentication tag: first cell is an injective code of
the cipher identifier, key, nonce, and ciphertext; remaining 15 cells are
zero so that the tag occupies exactly 16 positions of the wire record. -/
def macTag (cipherId : Nat) (key nonce ciphertext : List Nat) : List Nat :=
  Nat.pair cipherId
    (Nat.pair (encBytes key) (Nat.pair (encBytes nonce) (encBytes ciphertext)))
    :: List.replicate 15 0

theorem macTag_length (cipherId : Nat) (key nonce ciphertext : List Nat) :
    (macTag cipherId key nonce ciphertext).length = 16 := by
  simp [macTag]

/-- Tags over the same cipher and key differ whenever nonce or ciphertext
differ (byte-valued entries required for injectivity of the encoding). -/
theorem macTag_ne {cipherId : Nat} {key n₁ n₂ c₁ c₂ : List Nat}
    (hn₁ : ∀ b ∈ n₁, b < 256) (hn₂ : ∀ b ∈ n₂, b < 256)
    (hc₁ : ∀ b ∈ c₁, b < 256) (hc₂ : ∀ b ∈ c₂, b < 256)
    (hne : n₁ ≠ n₂ ∨ c₁ ≠ c₂) :
    macTag cipherId key n₁ c₁ ≠ macTag cipherId key n₂ c₂ := by
  intro h
  have hhead := List.head_eq_of_cons_eq h
  rw [Nat.pair_eq_pair] at hhead
  rw [Nat.pair_eq_pair] at hhead
  have h2 := hhead.2.2
  rw [Nat.pair_eq_pair] at h2
  rcases hne with hne | hne
  · exact hne (encBytes_inj hn₁ hn₂ h2.1)
  · exact hne (encBytes_inj hc₁ hc₂ h2.2)

/-! ## `crypto.ts` — AES-256-GCM `encrypt` / `decrypt`

Source: `src/client/typescript/src/crypto.ts`.  The random 16-byte IV that
`crypto.randomBytes(16)` draws inside `encrypt` is passed explicitly, per
the spec's explicit-randomness design note. -/

/-- `encrypt(data, key)`: fresh IV, AES-256-GCM ciphertext and tag, result
laid out as `[iv][authTag][ciphertext]`. -/
def encrypt (data key iv : List Nat) : List Nat :=
  let encrypted := xorKs (aesKeystream key iv) 0 data
  let authTag := macTag 0 key iv encrypted
  iv ++ authTag ++ encrypted

/-- `decrypt(encryptedData, key)`: slice IV (bytes 0–16), tag (16–32) and
ciphertext (32–); recompute the AEAD tag from the record's own IV and
ciphertext; `decipher.final()` throws on mismatch (no partial output). -/
def decrypt (encryptedData key : List Nat) : Except CryptoError (List Nat) :=
  let iv := encryptedData.take 16
  let authTag := (encryptedData.drop 16).take 16
  let ciphertext := encryptedData.drop 32
  if macTag 0 key iv ciphertext = authTag then
    Except.ok (xorKs (aesKeystream key iv) 0 ciphertext)
  else
    Except.error CryptoError.authenticationError

theorem encrypt_length (data key iv : List Nat) (hiv : iv.length = 16) :
    (encrypt data key iv).length = 32 + data.length := by
  simp [encrypt, hiv, macTag, xorKs_length]
  omega

/-- Slicing an `[iv][tag][ct]` record recovers its parts. -/
theorem record_slices (iv tag ct : List Nat) (hiv : iv.length = 16)
    (htag : tag.length = 16) :
    (iv ++ tag ++ ct).take 16 = iv ∧
    ((iv ++ tag ++ ct).drop 16).take 16 = tag ∧
    (iv ++ tag ++ ct).drop 32 = ct := by
  refine ⟨?_, ?_, ?_⟩
  · rw [List.append_assoc, List.take_left' hiv]
  · rw [List.append_assoc, List.drop_left' hiv, List.take_left' htag]
  · have : (iv ++ tag).length = 32 := by simp [hiv, htag]
    rw [List.drop_left' this]

/-- AES-GCM round trip: decrypting a sealed record under the sealing key
recovers the plaintext. -/
theorem decrypt_encrypt (data key iv : List Nat) (hiv : iv.length = 16) :
    decrypt (encrypt data key iv) key = Except.ok data := by
  unfold encrypt decrypt
  obtain ⟨h1, h2, h3⟩ := record_slices iv
    (macTag 0 key iv (xorKs (aesKeystream key iv) 0 data))
    (xorKs (aesKeystream key iv) 0 data) hiv (macTag_length _ _ _ _)
  simp only [h1, h2, h3, if_pos rfl, xorKs_xorKs]
  simp

/-! ## `crypto/encryption.ts` — ChaCha20-Poly1305 with AES-GCM fallback

Source: `src/client/typescript/src/crypto/encryption.ts`.  The sealed
record carries no cipher-identifier field: `decryptChaCha20` first tries
the ChaCha20 slicing/decryption and, if that throws, the `catch` block
retries the whole record with AES-GCM (`return decrypt(encryptedData, key)`). -/

/-- `encryptChaCha20(data, key)`: 12-byte nonce, laid out as
`[nonce][authTag][ciphertext]`.  (The `catch` fallback to AES-GCM fires
only when the platform lacks the cipher; the model takes it available.) -/
def encryptChaCha20 (data key nonce : List Nat) : List Nat :=
  let ciphertext := xorKs (chachaKeystream key nonce) 0 data
  let authTag := macTag 1 key nonce ciphertext
  nonce ++ authTag ++ ciphertext

/-- The `try` body of `decryptChaCha20`: slice nonce (0–12), tag (12–28),
ciphertext (28–) and decrypt, failing on tag mismatch. -/
def decryptChaCha20Try (encryptedData key : List Nat) :
    Except CryptoError (List Nat) :=
  let nonce := encryptedData.take 12
  let authTag := (encryptedData.drop 12).take 16
  let ciphertext := encryptedData.drop 28
  if macTag 1 key nonce ciphertext = authTag then
    Except.ok (xorKs (chachaKeystream key nonce) 0 ciphertext)
  else
    Except.error CryptoError.authenticationError

/-- `decryptChaCha20(encryptedData, key)`: attempt ChaCha20-Poly1305; on
any failure the `catch` block retries the record with AES-GCM. -/
def decryptChaCha20 (encryptedData key : List Nat) :
    Except CryptoError (List Nat) :=
  match decryptChaCha20Try encryptedData key with
  | Except.ok decrypted => Except.ok decrypted
  | Except.error _ => decrypt encryptedData key

/-! ## `models/metadata.ts` — metadata data model -/

/-- `Attribute { trait_type, value }`. -/
structure Attribute where
  trait_type : String
  value : String
deriving DecidableEq, Repr

/-- `VrmConfig { modelUri, privacySettings }`. -/
structure VrmConfig where
  modelUri : String
  privacySettings : List (String × String)
deriving DecidableEq, Repr

/-- `PrivateData` section added by the privacy system.  The base64 string
`encryptedAttributes` is transported here as the raw sealed-record bytes:
`Buffer.toString('base64')` / `Buffer.from(·, 'base64')` is an external
lossless codec, modelled as the identity on byte sequences. -/
structure PrivateData where
  privacyLevel : String
  encryptedAttributes : Option (List Nat)
  timelineFragments : Option (List String)
  vrmConfig : Option VrmConfig
deriving DecidableEq, Repr

/-- `GlitchGangMetadata` (the `properties.files` URIs flattened). -/
structure GlitchGangMetadata where
  name : String
  symbol : String
  description : String
  attributes : List Attribute
  image : String
  properties : List String
  privateData : Option PrivateData
deriving DecidableEq, Repr

/-! ## `models/vrm.ts` — privacy levels -/

/-- `enum PrivacyLevel { None = 0, Light, Medium, Heavy, Complete }`. -/
inductive PrivacyLevel where
  | levelNone
  | light
  | medium
  | heavy
  | complete
deriving DecidableEq, Repr

/-- Ordinal value of a tier (the TS enum's numeric value). -/
def PrivacyLevel.toNat : PrivacyLevel → Nat
  | .levelNone => 0
  | .light => 1
  | .medium => 2
  | .heavy => 3
  | .complete => 4

/-- `PrivacyLevel[privacyLevel]` — the enum's reverse mapping to the
tier's name string. -/
def PrivacyLevel.levelName : PrivacyLevel → String
  | .levelNone => "None"
  | .light => "Light"
  | .medium => "Medium"
  | .heavy => "Heavy"
  | .complete => "Complete"

/-! ## JSON codec for attribute lists

`JSON.stringify` / `JSON.parse` over `Attribute[]` are external library
functions; they are modelled as a concrete injective byte encoding with a
parser that is its left inverse (count-prefixed list of length-prefixed
strings), exactly the property the client relies on. -/

/-- Model of serializing one string: its length followed by its character
codes. -/
def encodeString (s : String) : List Nat :=
  s.data.length :: s.data.map Char.toNat

/-- Model of serializing one attribute: its two strings in order. -/
def encodeAttr (a : Attribute) : List Nat :=
  encodeString a.trait_type ++ encodeString a.value

/-- Model of `JSON.stringify(attrs)`: entry count followed by the encoded
entries in their original relative order. -/
def jsonStringifyAttrs (l : List Attribute) : List Nat :=
  l.length :: (l.map encodeAttr).flatten

/-- Decode `n` characters, returning them with the unconsumed rest. -/
def decodeChars : Nat → List Nat → Option (List Char × List Nat)
  | 0, rest => some ([], rest)
  | _ + 1, [] => none
  | n + 1, c :: rest =>
    (decodeChars n rest).map (fun p => (Char.ofNat c :: p.1, p.2))

/-- Decode one length-prefixed string. -/
def decodeString : List Nat → Option (String × List Nat)
  | [] => none
  | n :: rest => (decodeChars n rest).map (fun p => (String.mk p.1, p.2))

/-- Decode `n` attributes. -/
def decodeAttrs : Nat → List Nat → Option (List Attribute × List Nat)
  | 0, rest => some ([], rest)
  | n + 1, bytes => do
    let (t, r₁) ← decodeString bytes
    let (v, r₂) ← decodeString r₁
    let (rest, r₃) ← decodeAttrs n r₂
    pure (⟨t, v⟩ :: rest, r₃)

/-- Model of `JSON.parse` over an encoded attribute list; `none` models a
thrown `SyntaxError` on malformed input. -/
def jsonParseAttrs (bytes : List Nat) : Option (List Attribute) :=
  match bytes with
  | [] => none
  | n :: rest =>
    match decodeAttrs n rest with
    | some (l, []) => some l
    | _ => none

theorem decodeChars_encode (cs : List Char) (rest : List Nat) :
    decodeChars cs.length (cs.map Char.toNat ++ rest) = some (cs, rest) := by
  induction cs with
  | nil => simp [decodeChars]
  | cons c cs ih => simp [decodeChars, ih, Char.ofNat_toNat]

theorem decodeString_encode (s : String) (rest : List Nat) :
    decodeString (encodeString s ++ rest) = some (s, rest) := by
  unfold encodeString decodeString
  simp only [List.cons_append]
  rw [decodeChars_encode]
  rfl

theorem decodeAttrs_encode (l : List Attribute) (rest : List Nat) :
    decodeAttrs l.length ((l.map encodeAttr).flatten ++ rest) =
      some (l, rest) := by
  induction l generalizing rest with
  | nil => simp [decodeAttrs]
  | cons a l ih =>
    simp only [List.map_cons, List.flatten_cons, List.length_cons,
      decodeAttrs, encodeAttr, List.append_assoc]
    rw [decodeString_encode]
    simp only [Option.bind_eq_bind, Option.some_bind]
    rw [decodeString_encode]
    simp [ih]

/-- The modelled JSON codec round-trips on attribute lists. -/
theorem jsonParse_stringify (l : List Attribute) :
    jsonParseAttrs (jsonStringifyAttrs l) = some l := by
  unfold jsonStringifyAttrs jsonParseAttrs
  have := decodeAttrs_encode l []
  simp only [List.append_nil] at this
  simp [this]

/-! ## `GlitchGangPrivacyClient` — attribute protection

Source: `src/unnamed/part_001`.  The Solana connection, owner keypair and
program id are external handles never consulted by the privacy core and
are omitted; the client state kept is the encryption key and the
optionally-loaded VRM model (`vrmModel : VRM | null`, set by
`loadVrmModel`, modelled as an opaque `Option Unit`). -/

structure Client where
  encryptionKey : List Nat
  vrmModel : Option Unit
deriving DecidableEq, Repr

/-- `getSensitiveAttributes(privacyLevel)`: the fixed sensitivity table.
(`Heavy` and `Complete` share one `case` fall-through in the source.) -/
def getSensitiveAttributes : PrivacyLevel → List String
  | .levelNone => []
  | .light => ["Secret Code", "Agent Name"]
  | .medium => ["Secret Code", "Agent Name", "Mission", "Origin"]
  | .heavy => ["Secret Code", "Agent Name", "Mission", "Origin",
               "Accessory", "Symbols"]
  | .complete => ["Secret Code", "Agent Name", "Mission", "Origin",
                  "Accessory", "Symbols"]

/-- `protectMetadata(metadata, privacyLevel)`: partition the attributes by
sensitivity, keep the public ones, and — only when the private part is
non-empty — seal the JSON of the private part and attach a fresh
`privateData` section `{privacyLevel-name, encryptedAttributes}`.  The
random IV drawn inside `encrypt` is passed explicitly. -/
def protectMetadata (c : Client) (metadata : GlitchGangMetadata)
    (privacyLevel : PrivacyLevel) (iv : List Nat) : GlitchGangMetadata :=
  let sensitiveAttributes := getSensitiveAttributes privacyLevel
  let privateAttrs := metadata.attributes.filter
    (fun attr => sensitiveAttributes.contains attr.trait_type)
  let publicAttrs := metadata.attributes.filter
    (fun attr => !sensitiveAttributes.contains attr.trait_type)
  let protectedMeta := { metadata with attributes := publicAttrs }
  if privateAttrs.length > 0 then
    let privateJson := jsonStringifyAttrs privateAttrs
    let encrypted := encrypt privateJson c.encryptionKey iv
    { protectedMeta with
      privateData := some
        { privacyLevel := privacyLevel.levelName
          encryptedAttributes := some encrypted
          timelineFragments := none
          vrmConfig := none } }
  else
    protectedMeta

/-- `decryptMetadata(protectedMetadata)`: when an encrypted-attributes
section is present, decrypt it, parse it, and append the recovered private
attributes after the public ones.  Any failure is caught (`catch`), and
the still-protected input is returned unchanged. -/
def decryptMetadata (c : Client) (protectedMeta : GlitchGangMetadata) :
    GlitchGangMetadata :=
  match protectedMeta.privateData with
  | none => protectedMeta
  | some pd =>
    match pd.encryptedAttributes with
    | none => protectedMeta
    | some encryptedData =>
      match decrypt encryptedData c.encryptionKey with
      | Except.error _ => protectedMeta
      | Except.ok decryptedData =>
        match jsonParseAttrs decryptedData with
        | none => protectedMeta
        | some privateAttrs =>
          { protectedMeta with
            attributes := protectedMeta.attributes ++ privateAttrs }

/-! ## `models/vrm.ts` — behavioral-frame data model

Scalar fields (`number` in TS) are modelled as real numbers; the `Map`
fields are modelled as association lists.  `Math.random()` is passed in
explicitly as a draw stream `rand : ℕ → ℝ` (one value per call, consumed
in source order), per the spec's explicit-randomness design note. -/

structure PositionData where
  x : ℝ
  y : ℝ
  z : ℝ

structure RotationData where
  x : ℝ
  y : ℝ
  z : ℝ
  w : ℝ

structure VoiceData where
  frequency : List ℝ
  amplitude : List ℝ
  pitch : ℝ
  timbre : ℝ

structure GestureData where
  name : String
  intensity : ℝ
  speed : ℝ
  jointRotations : List (String × RotationData)

structure VrmData where
  position : PositionData
  rotation : RotationData
  voice : Option VoiceData
  gestures : List GestureData
  animations : List (String × ℝ)
  customData : List (String × String)

/-- Map over a list together with the element index, starting at `i₀`;
models the indexed `for` loops of the noise generators. -/
def mapWithIdx (f : Nat → α → β) : Nat → List α → List β
  | _, [] => []
  | i, a :: rest => f i a :: mapWithIdx f (i + 1) rest

/-! ## `GlitchGangPrivacyClient` — behavioral-mask engine -/

/-- `isViewerTrusted(viewerId, nftMint?)`: membership in the hardcoded
trusted-agents list (the mint argument is accepted and ignored). -/
def isViewerTrusted (viewerId : String) (_nftMint : Option String) : Bool :=
  ["agent1.glitch.gang", "agent2.glitch.gang"].contains viewerId

/-- `addPositionNoise(position, intensity)`: each axis moves by
`(Math.random() - 0.5) * 2 * intensity`; draws 0,1,2 in call order. -/
noncomputable def addPositionNoise (position : PositionData) (intensity : ℝ)
    (rand : ℕ → ℝ) : PositionData :=
  { x := position.x + (rand 0 - 0.5) * 2 * intensity
    y := position.y + (rand 1 - 0.5) * 2 * intensity
    z := position.z + (rand 2 - 0.5) * 2 * intensity }

/-- `addRotationNoise(rotation, intensity)`: draw an angle in
`[0, intensity·π]` (draw 0) and an axis (draws 1–3), normalize the axis,
build the half-angle perturbation quaternion, multiply
`original ⊗ perturbation` componentwise exactly as in the source, and
renormalize the result. -/
noncomputable def addRotationNoise (rotation : RotationData) (intensity : ℝ)
    (rand : ℕ → ℝ) : RotationData :=
  let noiseAngle := intensity * Real.pi * rand 0
  let noiseAxisX := rand 1 * 2 - 1
  let noiseAxisY := rand 2 * 2 - 1
  let noiseAxisZ := rand 3 * 2 - 1
  let mag := Real.sqrt (noiseAxisX ^ 2 + noiseAxisY ^ 2 + noiseAxisZ ^ 2)
  let normalizedX := noiseAxisX / mag
  let normalizedY := noiseAxisY / mag
  let normalizedZ := noiseAxisZ / mag
  let sinHalfAngle := Real.sin (noiseAngle / 2)
  let cosHalfAngle := Real.cos (noiseAngle / 2)
  let noiseQuatX := normalizedX * sinHalfAngle
  let noiseQuatY := normalizedY * sinHalfAngle
  let noiseQuatZ := normalizedZ * sinHalfAngle
  let noiseQuatW := cosHalfAngle
  let rx := rotation.w * noiseQuatX + rotation.x * noiseQuatW +
    rotation.y * noiseQuatZ - rotation.z * noiseQuatY
  let ry := rotation.w * noiseQuatY - rotation.x * noiseQuatZ +
    rotation.y * noiseQuatW + rotation.z * noiseQuatX
  let rz := rotation.w * noiseQuatZ + rotation.x * noiseQuatY -
    rotation.y * noiseQuatX + rotation.z * noiseQuatW
  let rw := rotation.w * noiseQuatW - rotation.x * noiseQuatX -
    rotation.y * noiseQuatY - rotation.z * noiseQuatZ
  let rotMag := Real.sqrt (rx ^ 2 + ry ^ 2 + rz ^ 2 + rw ^ 2)
  { x := rx / rotMag
    y := ry / rotMag
    z := rz / rotMag
    w := rw / rotMag }

/-- `addVoiceNoise(voice, intensity)`: frequency bins first (draws
`0..nf-1`), then amplitude bins clamped at 0, then pitch and timbre, the
latter clamped to `[0, 1]`. -/
noncomputable def addVoiceNoise (voice : VoiceData) (intensity : ℝ)
    (rand : ℕ → ℝ) : VoiceData :=
  let nf := voice.frequency.length
  let na := voice.amplitude.length
  { frequency := mapWithIdx
      (fun i f => f + (rand i - 0.5) * 2 * intensity * 100) 0 voice.frequency
    amplitude := mapWithIdx
      (fun i a => max 0 (a + (rand (nf + i) - 0.5) * 2 * intensity)) 0
      voice.amplitude
    pitch := voice.pitch + (rand (nf + na) - 0.5) * 2 * intensity * 50
    timbre := max 0 (min 1
      (voice.timbre + (rand (nf + na + 1) - 0.5) * 2 * intensity)) }

/-- `addGestureNoise(gesture, intensity)`: intensity clamped to `[0, 1]`,
speed floored at 0.1. -/
noncomputable def addGestureNoise (gesture : GestureData) (intensity : ℝ)
    (rand : ℕ → ℝ) : GestureData :=
  { gesture with
    intensity := max 0 (min 1
      (gesture.intensity + (rand 0 - 0.5) * 2 * intensity))
    speed := max 0.1 (gesture.speed + (rand 1 - 0.5) * 2 * intensity) }

/-- Number of draws `addVoiceNoise` consumes (used to offset the gesture
draws that follow it). -/
def voiceDraws : Option VoiceData → Nat
  | none => 0
  | some v => v.frequency.length + v.amplitude.length + 2

/-- `applyVrmPrivacyMask(vrmData, viewerId?, nftMint?)`.  Returns the
frame paired with an aliasing flag modelling JS object identity: `true`
when the source returns the argument object itself, `false` when it
returns the fresh `JSON.parse(JSON.stringify(vrmData))` clone.  With no
loaded VRM model, or for a trusted viewer, the input object itself is
returned; otherwise the clone gets position, rotation, voice and gesture
noise with the fixed intensities 0.5, 0.3, 0.7 and 0.4, consuming the
draw stream in source order. -/
noncomputable def applyVrmPrivacyMask (c : Client) (vrmData : VrmData)
    (viewerId : Option String) (nftMint : Option String) (rand : ℕ → ℝ) :
    VrmData × Bool :=
  match c.vrmModel with
  | none => (vrmData, true)
  | some _ =>
    let isTrusted := match viewerId with
      | some v => isViewerTrusted v nftMint
      | none => false
    if isTrusted then
      (vrmData, true)
    else
      let maskedPosition := addPositionNoise vrmData.position 0.5 rand
      let maskedRotation := addRotationNoise vrmData.rotation 0.3
        (fun i => rand (3 + i))
      let maskedVoice := vrmData.voice.map
        (fun v => addVoiceNoise v 0.7 (fun i => rand (7 + i)))
      let gestureBase := 7 + voiceDraws vrmData.voice
      let maskedGestures := mapWithIdx
        (fun j g => addGestureNoise g 0.4
          (fun i => rand (gestureBase + 2 * j + i))) 0 vrmData.gestures
      ({ vrmData with
          position := maskedPosition
          rotation := maskedRotation
          voice := maskedVoice
          gestures := maskedGestures }, false)

/-! ## Quaternion reference definitions

Textbook Hamilton product and squared norm, stated independently of the
masking code so that the rotation-noise theorem can compare the code's
componentwise formulas against them. -/

/-- Hamilton product `q ⊗ p` (first operand on the left). -/
def quatMul (q p : RotationData) : RotationData :=
  { x := q.w * p.x + q.x * p.w + q.y * p.z - q.z * p.y
    y := q.w * p.y - q.x * p.z + q.y * p.w + q.z * p.x
    z := q.w * p.z + q.x * p.y - q.y * p.x + q.z * p.w
    w := q.w * p.w - q.x * p.x - q.y * p.y - q.z * p.z }

/-- Squared quaternion norm. -/
def qnorm2 (q : RotationData) : ℝ :=
  q.x ^ 2 + q.y ^ 2 + q.z ^ 2 + q.w ^ 2

/-- Renormalization to unit length, as the source performs it (divide each
component by the current norm). -/
noncomputable def normalizeQ (q : RotationData) : RotationData :=
  let m := Real.sqrt (qnorm2 q)
  { x := q.x / m, y := q.y / m, z := q.z / m, w := q.w / m }

/-- The perturbation quaternion `addRotationNoise` builds from its four
draws: normalized random axis, half of a random angle in
`[0, intensity·π]`. -/
noncomputable def noiseQuatOf (intensity : ℝ) (rand : ℕ → ℝ) :
    RotationData :=
  let noiseAngle := intensity * Real.pi * rand 0
  let noiseAxisX := rand 1 * 2 - 1
  let noiseAxisY := rand 2 * 2 - 1
  let noiseAxisZ := rand 3 * 2 - 1
  let mag := Real.sqrt (noiseAxisX ^ 2 + noiseAxisY ^ 2 + noiseAxisZ ^ 2)
  { x := noiseAxisX / mag * Real.sin (noiseAngle / 2)
    y := noiseAxisY / mag * Real.sin (noiseAngle / 2)
    z := noiseAxisZ / mag * Real.sin (noiseAngle / 2)
    w := Real.cos (noiseAngle / 2) }

/-- Euler's four-square identity, quaternion form: the Hamilton product
multiplies squared norms. -/
theorem qnorm2_quatMul (q p : RotationData) :
    qnorm2 (quatMul q p) = qnorm2 q * qnorm2 p := by
  simp only [quatMul, qnorm2]
  ring

/-- Renormalizing a quaternion of positive norm yields a unit quaternion. -/
theorem qnorm2_normalizeQ (q : RotationData) (h : 0 < qnorm2 q) :
    qnorm2 (normalizeQ q) = 1 := by
  have hm : Real.sqrt (qnorm2 q) ≠ 0 := by
    positivity
  have hsq : Real.sqrt (qnorm2 q) ^ 2 = qnorm2 q := Real.sq_sqrt h.le
  simp only [normalizeQ, qnorm2, div_pow] at *
  field_simp

/-- An axis-angle quaternion over a nonzero axis is a unit quaternion. -/
theorem qnorm2_noiseQuatOf (intensity : ℝ) (rand : ℕ → ℝ)
    (haxis : 0 < (rand 1 * 2 - 1) ^ 2 + (rand 2 * 2 - 1) ^ 2 +
      (rand 3 * 2 - 1) ^ 2) :
    qnorm2 (noiseQuatOf intensity rand) = 1 := by
  set ax := rand 1 * 2 - 1
  set ay := rand 2 * 2 - 1
  set az := rand 3 * 2 - 1
  set θ := intensity * Real.pi * rand 0 / 2
  have hm : Real.sqrt (ax ^ 2 + ay ^ 2 + az ^ 2) ≠ 0 := by positivity
  have hsq : Real.sqrt (ax ^ 2 + ay ^ 2 + az ^ 2) ^ 2 =
      ax ^ 2 + ay ^ 2 + az ^ 2 := Real.sq_sqrt haxis.le
  have htrig : Real.sin θ ^ 2 + Real.cos θ ^ 2 = 1 :=
    Real.sin_sq_add_cos_sq θ
  simp only [noiseQuatOf, qnorm2]
  field_simp
  nlinarith [htrig, hsq]

/-- The code's componentwise rotation update is exactly
`normalize (original ⊗ perturbation)` in that operand order. -/
theorem addRotationNoise_eq (rotation : RotationData) (intensity : ℝ)
    (rand : ℕ → ℝ) :
    addRotationNoise rotation intensity rand =
      normalizeQ (quatMul rotation (noiseQuatOf intensity rand)) := by
  simp only [addRotationNoise, normalizeQ, quatMul, noiseQuatOf, qnorm2]

/-! ## Single-bit tampering of a sealed record -/

/-- Flip bit `bit` of the byte at position `p` of a byte buffer. -/
def flipBit (l : List Nat) (p bit : Nat) : List Nat :=
  l.set p (l.getD p 0 ^^^ 2 ^ bit)

theorem xor_ne_self (b : Nat) {m : Nat} (hm : m ≠ 0) : b ^^^ m ≠ b := by
  intro h
  have h2 : b ^^^ (b ^^^ m) = b ^^^ b := by rw [h]
  rw [← Nat.xor_assoc, Nat.xor_self, Nat.zero_xor] at h2
  exact hm h2

/-- Flipping a bit inside a list changes the list. -/
theorem set_flip_ne (l : List Nat) (p bit : Nat) (hp : p < l.length) :
    l.set p (l.getD p 0 ^^^ 2 ^ bit) ≠ l := by
  intro h
  have h2 : (l.set p (l.getD p 0 ^^^ 2 ^ bit)).getD p 0 = l.getD p 0 := by
    rw [h]
  rw [List.getD_eq_getElem _ _ (by simpa using hp),
    List.getElem_set_self (by simpa using hp),
    List.getD_eq_getElem _ _ hp] at h2
  exact xor_ne_self _ (pow_pos (by norm_num : (0 : Nat) < 2) bit).ne' h2

/-- Flipping one of the low eight bits keeps a byte list byte-valued. -/
theorem flip_bytes_lt (l : List Nat) (p bit : Nat)
    (hl : ∀ b ∈ l, b < 256) (hbit : bit < 8) :
    ∀ b ∈ l.set p (l.getD p 0 ^^^ 2 ^ bit), b < 256 := by
  intro b hb
  rcases List.mem_or_eq_of_mem_set hb with h | h
  · exact hl b h
  · subst h
    have h0 : l.getD p 0 < 256 := by
      by_cases hp : p < l.length
      · rw [List.getD_eq_getElem _ _ hp]
        exact hl _ (l.getElem_mem hp)
      · rw [List.getD_eq_default _ _ (Nat.le_of_not_lt hp)]
        norm_num
    have h1 : (2 : Nat) ^ bit < 2 ^ 8 :=
      Nat.pow_lt_pow_right (by norm_num) hbit
    have h256 : (256 : Nat) = 2 ^ 8 := by norm_num
    rw [h256] at h0 ⊢
    exact Nat.bitwise_lt_two_pow h0 h1

/-- Keystream bytes stay below 256. -/
theorem aesKeystream_lt (key iv : List Nat) : ∀ i, aesKeystream key iv i < 256 :=
  fun _ => Nat.mod_lt _ (by norm_num)

/-- **C7.** Flipping any single bit of a sealed record — in the IV/nonce,
the authentication tag, or the ciphertext — before `decrypt` always makes
`decrypt` fail with `AuthenticationError` and return no plaintext at all,
partial or otherwise.  Proved by cases on which region of the
`[iv][tag][ciphertext]` record the flipped bit falls in, under the
ideal-tag AEAD model of AES-GCM. -/
theorem decrypt_flip (data key iv : List Nat) (p bit : Nat)
    (hiv : iv.length = 16) (hdata : ∀ b ∈ data, b < 256)
    (hivb : ∀ b ∈ iv, b < 256) (hbit : bit < 8)
    (hp : p < (encrypt data key iv).length) :
    decrypt (flipBit (encrypt data key iv) p bit) key =
      Except.error CryptoError.authenticationError := by
  have hctb : ∀ b ∈ xorKs (aesKeystream key iv) 0 data, b < 256 :=
    xorKs_lt_256 _ (aesKeystream_lt key iv) 0 data hdata
  set ct := xorKs (aesKeystream key iv) 0 data with hct
  set tag := macTag 0 key iv ct with htagdef
  have htaglen : tag.length = 16 := macTag_length _ _ _ _
  have hctlen : ct.length = data.length := xorKs_length _ _ _
  have hrec : encrypt data key iv = iv ++ tag ++ ct := rfl
  rw [hrec] at hp ⊢
  have hlen12 : (iv ++ tag).length = 32 := by simp [hiv, htaglen]
  unfold flipBit
  rcases Nat.lt_or_ge p 16 with h16 | h16
  · -- bit inside the IV
    have hpin : p < iv.length := by omega
    have hgd : (iv ++ tag ++ ct).getD p 0 = iv.getD p 0 := by
      rw [List.getD_append _ _ _ _ (by omega), List.getD_append _ _ _ _ hpin]
    rw [hgd, List.set_append_left _ _ (by omega),
      List.set_append_left _ _ hpin]
    set iv2 := iv.set p (iv.getD p 0 ^^^ 2 ^ bit) with hiv2
    have hiv2len : iv2.length = 16 := by simp [hiv2, hiv]
    obtain ⟨s1, s2, s3⟩ := record_slices iv2 tag ct hiv2len htaglen
    have hne : macTag 0 key iv2 ct ≠ tag := by
      rw [htagdef]
      exact macTag_ne (flip_bytes_lt iv p bit hivb hbit) hivb hctb hctb
        (Or.inl (set_flip_ne iv p bit hpin))
    simp only [decrypt, s1, s2, s3, if_neg hne]
  · rcases Nat.lt_or_ge p 32 with h32 | h32
    · -- bit inside the authentication tag
      have hpin : p - 16 < tag.length := by omega
      have hgd : (iv ++ tag ++ ct).getD p 0 = tag.getD (p - 16) 0 := by
        rw [List.getD_append _ _ _ _ (by omega),
          List.getD_append_right _ _ _ _ (by omega), hiv]
      rw [hgd, List.set_append_left _ _ (by omega),
        List.set_append_right _ _ (by omega), hiv]
      set tag2 := tag.set (p - 16) (tag.getD (p - 16) 0 ^^^ 2 ^ bit) with htag2
      have htag2len : tag2.length = 16 := by simp [htag2, htaglen]
      obtain ⟨s1, s2, s3⟩ := record_slices iv tag2 ct hiv htag2len
      have hne : macTag 0 key iv ct ≠ tag2 := by
        rw [← htagdef]
        exact fun h => set_flip_ne tag (p - 16) bit hpin h.symm
      simp only [decrypt, s1, s2, s3, if_neg hne]
    · -- bit inside the ciphertext
      have hpin : p - 32 < ct.length := by
        have := encrypt_length data key iv hiv
        rw [hrec] at this
        omega
      have hgd : (iv ++ tag ++ ct).getD p 0 = ct.getD (p - 32) 0 := by
        rw [List.getD_append_right _ _ _ _ (by omega), hlen12]
      rw [hgd, List.set_append_right _ _ (by omega), hlen12]
      set ct2 := ct.set (p - 32) (ct.getD (p - 32) 0 ^^^ 2 ^ bit) with hct2
      obtain ⟨s1, s2, s3⟩ := record_slices iv tag ct2 hiv htaglen
      have hne : macTag 0 key iv ct2 ≠ tag := by
        rw [htagdef]
        exact macTag_ne hivb hivb (flip_bytes_lt ct (p - 32) bit hctb hbit)
          hctb (Or.inr (set_flip_ne ct (p - 32) bit hpin))
      simp only [decrypt, s1, s2, s3, if_neg hne]

/-! ## Concrete sample inputs used by witnesses and counterexamples -/

/-- A 32-byte key of ones. -/
def sampleKey : List Nat := List.replicate 32 1

/-- A 16-byte all-zero IV. -/
def sampleIv : List Nat := List.replicate 16 0

/-- A client holding `sampleKey` with a VRM model loaded. -/
def sampleClient : Client := { encryptionKey := sampleKey, vrmModel := some () }

/-- A client holding `sampleKey` with no VRM model loaded. -/
def sampleClientNoModel : Client :=
  { encryptionKey := sampleKey, vrmModel := none }

/-- The spec's masking scenario frame: position `(10.5, 2.0, -3.2)`,
identity rotation, no voice, no gestures. -/
noncomputable def sampleFrame : VrmData :=
  { position := { x := 10.5, y := 2.0, z := -3.2 }
    rotation := { x := 0, y := 0, z := 0, w := 1 }
    voice := none
    gestures := []
    animations := []
    customData := [] }

/-- Ordinal predecessor of a privacy tier (tier `N-1` in the monotonic
escalation invariant; `None` is its own predecessor). -/
def PrivacyLevel.pred : PrivacyLevel → PrivacyLevel
  | .levelNone => .levelNone
  | .light => .levelNone
  | .medium => .light
  | .heavy => .medium
  | .complete => .heavy

/-! ## Claim theorems -/

/-- **C3.** `getSensitiveAttributes` realizes exactly the fixed cumulative
table — None ↦ ∅; Light ↦ {Secret Code, Agent Name}; Medium ↦ Light ∪
{Mission, Origin}; Heavy and Complete ↦ Medium ∪ {Accessory, Symbols} —
and consequently every tier's protected-category set contains its
predecessor tier's set. -/
theorem getSensitiveAttributes_table :
    getSensitiveAttributes PrivacyLevel.levelNone = [] ∧
    (∀ s : String, s ∈ getSensitiveAttributes PrivacyLevel.light ↔
      s = "Secret Code" ∨ s = "Agent Name") ∧
    (∀ s : String, s ∈ getSensitiveAttributes PrivacyLevel.medium ↔
      s ∈ getSensitiveAttributes PrivacyLevel.light ∨
        s = "Mission" ∨ s = "Origin") ∧
    (∀ s : String, s ∈ getSensitiveAttributes PrivacyLevel.heavy ↔
      s ∈ getSensitiveAttributes PrivacyLevel.medium ∨
        s = "Accessory" ∨ s = "Symbols") ∧
    getSensitiveAttributes PrivacyLevel.complete =
      getSensitiveAttributes PrivacyLevel.heavy ∧
    (∀ l : PrivacyLevel, ∀ s ∈ getSensitiveAttributes l.pred,
      s ∈ getSensitiveAttributes l) := by
  refine ⟨rfl, ?_, ?_, ?_, rfl, ?_⟩
  · intro s
    simp [getSensitiveAttributes]
  · intro s
    simp [getSensitiveAttributes]
    tauto
  · intro s
    simp [getSensitiveAttributes]
    tauto
  · intro l s hs
    cases l <;> simp_all [getSensitiveAttributes, PrivacyLevel.pred] <;> tauto

/-- **C10.** With no VRM model loaded, `applyVrmPrivacyMask` returns the
input frame for every viewer — and the alias flag records that it is the
very same object, not a copy — so no noise is injected before
`loadVrmModel` has succeeded. -/
theorem applyVrmPrivacyMask_no_model_identity (c : Client) (vrmData : VrmData)
    (viewerId nftMint : Option String) (rand : ℕ → ℝ)
    (h : c.vrmModel = none) :
    applyVrmPrivacyMask c vrmData viewerId nftMint rand = (vrmData, true) := by
  simp [applyVrmPrivacyMask, h]

/-- Witness for C10 at a concrete client, frame and viewer. -/
theorem applyVrmPrivacyMask_no_model_identity_witness :
    sampleClientNoModel.vrmModel = none ∧
    applyVrmPrivacyMask sampleClientNoModel sampleFrame
      (some "stranger.glitch.gang") none (fun _ => 1) = (sampleFrame, true) :=
  ⟨rfl, applyVrmPrivacyMask_no_model_identity sampleClientNoModel sampleFrame
    (some "stranger.glitch.gang") none (fun _ => 1) rfl⟩

/-- **C4, counterexample.** The claim says a trusted viewer receives a
fresh copy that does not alias the input.  With a model loaded and the
hardcoded trusted viewer `agent1.glitch.gang`, the source executes
`return vrmData`, handing back the argument object itself: the aliasing
flag of the embedding is `true`, refuting the no-aliasing part. -/
theorem applyVrmPrivacyMask_trusted_aliases_cex :
    (applyVrmPrivacyMask sampleClient sampleFrame
      (some "agent1.glitch.gang") none (fun _ => 1)).2 = true := by
  simp [applyVrmPrivacyMask, sampleClient, isViewerTrusted]

/-- **C4, amended.** For every frame, a trusted viewer receives the input
frame unmodified in every field — but as the very same object (the source
returns `vrmData` itself), not a fresh copy. -/
theorem applyVrmPrivacyMask_trusted_identity (c : Client) (vrmData : VrmData)
    (v : String) (nftMint : Option String) (rand : ℕ → ℝ)
    (hv : isViewerTrusted v nftMint = true) :
    applyVrmPrivacyMask c vrmData (some v) nftMint rand = (vrmData, true) := by
  cases hm : c.vrmModel <;> simp [applyVrmPrivacyMask, hm, hv]

/-- Witness for the amended C4 at the first hardcoded trusted agent. -/
theorem applyVrmPrivacyMask_trusted_identity_witness :
    isViewerTrusted "agent1.glitch.gang" none = true ∧
    applyVrmPrivacyMask sampleClient sampleFrame
      (some "agent1.glitch.gang") none (fun _ => 0.25) = (sampleFrame, true) :=
  ⟨rfl, applyVrmPrivacyMask_trusted_identity sampleClient sampleFrame
    "agent1.glitch.gang" none (fun _ => 0.25) rfl⟩

/-- **C5, counterexample.** The claim's tier table implies that at tier
None an untrusted viewer still gets back an unchanged frame.
`applyVrmPrivacyMask` takes no tier at all: with a model loaded and an
untrusted (absent) viewer it always injects noise, so at the concrete
frame with position x = 10.5 and the constant draw 0.75 the masked x is
10.75, and the output differs from the input at every tier, None
included. -/
theorem applyVrmPrivacyMask_none_tier_cex :
    (applyVrmPrivacyMask sampleClient sampleFrame none none
      (fun _ => 0.75)).1.position.x ≠ sampleFrame.position.x := by
  simp only [applyVrmPrivacyMask, sampleClient, addPositionNoise, sampleFrame]
  norm_num

/-- **C5, amended.** `applyVrmPrivacyMask` consults no tier table: for an
untrusted viewer (model loaded) it always applies the fixed per-field
intensities — position noise at 0.5, rotation noise at 0.3, voice noise
at 0.7, and every gesture entry noised at 0.4 — and with draws in `[0,1]`
each position axis therefore moves by at most 0.5. -/
theorem applyVrmPrivacyMask_fixed_intensities (c : Client) (vrmData : VrmData)
    (viewerId nftMint : Option String) (rand : ℕ → ℝ)
    (hm : c.vrmModel = some ())
    (hv : ∀ v, viewerId = some v → isViewerTrusted v nftMint = false)
    (hr : ∀ i, 0 ≤ rand i ∧ rand i ≤ 1) :
    (applyVrmPrivacyMask c vrmData viewerId nftMint rand).2 = false ∧
    (applyVrmPrivacyMask c vrmData viewerId nftMint rand).1.position =
      addPositionNoise vrmData.position 0.5 rand ∧
    (applyVrmPrivacyMask c vrmData viewerId nftMint rand).1.rotation =
      addRotationNoise vrmData.rotation 0.3 (fun i => rand (3 + i)) ∧
    (applyVrmPrivacyMask c vrmData viewerId nftMint rand).1.voice =
      vrmData.voice.map (fun v => addVoiceNoise v 0.7 (fun i => rand (7 + i))) ∧
    (applyVrmPrivacyMask c vrmData viewerId nftMint rand).1.gestures =
      mapWithIdx
        (fun j g => addGestureNoise g 0.4
          (fun i => rand (7 + voiceDraws vrmData.voice + 2 * j + i))) 0
        vrmData.gestures ∧
    |(applyVrmPrivacyMask c vrmData viewerId nftMint rand).1.position.x -
      vrmData.position.x| ≤ 0.5 ∧
    |(applyVrmPrivacyMask c vrmData viewerId nftMint rand).1.position.y -
      vrmData.position.y| ≤ 0.5 ∧
    |(applyVrmPrivacyMask c vrmData viewerId nftMint rand).1.position.z -
      vrmData.position.z| ≤ 0.5 := by
  obtain ⟨key, model⟩ := c
  simp only [Client.vrmModel] at hm
  subst hm
  have hout : applyVrmPrivacyMask ⟨key, some ()⟩ vrmData viewerId nftMint rand =
      ({ vrmData with
          position := addPositionNoise vrmData.position 0.5 rand
          rotation := addRotationNoise vrmData.rotation 0.3
            (fun i => rand (3 + i))
          voice := vrmData.voice.map
            (fun v => addVoiceNoise v 0.7 (fun i => rand (7 + i)))
          gestures := mapWithIdx
            (fun j g => addGestureNoise g 0.4
              (fun i => rand (7 + voiceDraws vrmData.voice + 2 * j + i))) 0
            vrmData.gestures }, false) := by
    simp only [applyVrmPrivacyMask]
    revert hv
    cases viewerId with
    | none => intro _; simp
    | some v => intro hv; simp [hv v rfl]
  rw [hout]
  refine ⟨rfl, rfl, rfl, rfl, rfl, ?_, ?_, ?_⟩ <;>
    simp only [addPositionNoise] <;>
    [ (obtain ⟨h0, h1⟩ := hr 0); (obtain ⟨h0, h1⟩ := hr 1);
      (obtain ⟨h0, h1⟩ := hr 2) ] <;>
    rw [abs_le] <;> constructor <;> ring_nf <;> linarith

/-- The scenario frame extended with one gesture entry, so that the
gesture-intensity conjunct of the amended C5 is exercised on a nonempty
gesture list. -/
noncomputable def sampleFrameGestured : VrmData :=
  { position := { x := 10.5, y := 2.0, z := -3.2 }
    rotation := { x := 0, y := 0, z := 0, w := 1 }
    voice := none
    gestures := [{ name := "wave", intensity := 0.5, speed := 1.0,
                   jointRotations := [] }]
    animations := []
    customData := [] }

/-- Witness for the amended C5: untrusted call (no viewer id) on the
gesture-bearing frame with the constant draw 0.75. -/
theorem applyVrmPrivacyMask_fixed_intensities_witness :
    sampleClient.vrmModel = some () ∧
    (applyVrmPrivacyMask sampleClient sampleFrameGestured none none
      (fun _ => 0.75)).2 = false ∧
    (applyVrmPrivacyMask sampleClient sampleFrameGestured none none
      (fun _ => 0.75)).1.gestures =
      mapWithIdx
        (fun _ g => addGestureNoise g 0.4 (fun _ => 0.75)) 0
        sampleFrameGestured.gestures ∧
    |(applyVrmPrivacyMask sampleClient sampleFrameGestured none none
      (fun _ => 0.75)).1.position.x - sampleFrameGestured.position.x| ≤
      0.5 := by
  have h := applyVrmPrivacyMask_fixed_intensities sampleClient
    sampleFrameGestured none none (fun _ => 0.75) rfl
    (fun v hv => nomatch hv) (fun _ => ⟨by norm_num, by norm_num⟩)
  exact ⟨rfl, h.1, h.2.2.2.2.1, h.2.2.2.2.2.1⟩

/-- **C9.** For a unit input rotation and any tier intensity, the masked
rotation is `normalize (original ⊗ perturbation)` in exactly that operand
order, the perturbation quaternion is unit, and the masked rotation's norm
is within `1e-6` of 1 (in the exact-real model the renormalized norm is
exactly 1, so the float-drift tolerance holds with room to spare).  The
axis draws must not all give zero, since the source divides by the axis
magnitude. -/
theorem addRotationNoise_unitNorm (rotation : RotationData) (intensity : ℝ)
    (rand : ℕ → ℝ) (hunit : qnorm2 rotation = 1)
    (haxis : 0 < (rand 1 * 2 - 1) ^ 2 + (rand 2 * 2 - 1) ^ 2 +
      (rand 3 * 2 - 1) ^ 2) :
    qnorm2 (noiseQuatOf intensity rand) = 1 ∧
    addRotationNoise rotation intensity rand =
      normalizeQ (quatMul rotation (noiseQuatOf intensity rand)) ∧
    |Real.sqrt (qnorm2 (addRotationNoise rotation intensity rand)) - 1| ≤
      1e-6 := by
  have h1 := qnorm2_noiseQuatOf intensity rand haxis
  have h2 := addRotationNoise_eq rotation intensity rand
  have hprod : qnorm2 (quatMul rotation (noiseQuatOf intensity rand)) = 1 := by
    rw [qnorm2_quatMul, hunit, h1, one_mul]
  have h3 : qnorm2 (addRotationNoise rotation intensity rand) = 1 := by
    rw [h2]
    exact qnorm2_normalizeQ _ (by rw [hprod]; exact one_pos)
  refine ⟨h1, h2, ?_⟩
  rw [h3, Real.sqrt_one]
  norm_num

/-- Witness for C9: identity rotation, intensity 0.3, constant draw 0.75. -/
theorem addRotationNoise_unitNorm_witness :
    qnorm2 ⟨0, 0, 0, 1⟩ = 1 ∧
    (0 : ℝ) < ((0.75 : ℝ) * 2 - 1) ^ 2 + ((0.75 : ℝ) * 2 - 1) ^ 2 +
      ((0.75 : ℝ) * 2 - 1) ^ 2 ∧
    |Real.sqrt (qnorm2 (addRotationNoise ⟨0, 0, 0, 1⟩ 0.3 (fun _ => 0.75))) -
      1| ≤ 1e-6 := by
  have hunit : qnorm2 (⟨0, 0, 0, 1⟩ : RotationData) = 1 := by
    simp [qnorm2]
  have haxis : (0 : ℝ) <
      ((fun _ : ℕ => (0.75 : ℝ)) 1 * 2 - 1) ^ 2 +
      ((fun _ : ℕ => (0.75 : ℝ)) 2 * 2 - 1) ^ 2 +
      ((fun _ : ℕ => (0.75 : ℝ)) 3 * 2 - 1) ^ 2 := by
    norm_num
  exact ⟨hunit, by norm_num,
    (addRotationNoise_unitNorm ⟨0, 0, 0, 1⟩ 0.3 (fun _ => 0.75) hunit
      haxis).2.2⟩

/-- The sealed record used by the C6 counterexample: an AES-GCM record for
plaintext byte `[7]` under `sampleKey` and `sampleIv`. -/
def sampleRecord : List Nat := encrypt [7] sampleKey sampleIv

/-- **C6, counterexample.** The claim says decryption dispatches on an
explicit cipher identifier and never retries another algorithm after a
failure.  The sealed record carries no cipher identifier, and on an
AES-GCM record `decryptChaCha20`'s ChaCha20 attempt fails, is caught, and
the AES-GCM retry succeeds — exception-driven cipher auto-detection. -/
theorem decryptChaCha20_autodetect_cex :
    decryptChaCha20Try sampleRecord sampleKey =
      Except.error CryptoError.authenticationError ∧
    decryptChaCha20 sampleRecord sampleKey = Except.ok [7] := by
  constructor
  · rfl
  · rfl

/-- **C6, amended.** Whenever the ChaCha20-Poly1305 attempt inside
`decryptChaCha20` fails, the `catch` block retries the very same record
with AES-GCM and returns that result instead of propagating the failure. -/
theorem decryptChaCha20_fallback (encryptedData key : List Nat)
    (e : CryptoError)
    (h : decryptChaCha20Try encryptedData key = Except.error e) :
    decryptChaCha20 encryptedData key = decrypt encryptedData key := by
  simp [decryptChaCha20, h]

/-- Witness for the amended C6 at the concrete AES-sealed record. -/
theorem decryptChaCha20_fallback_witness :
    decryptChaCha20Try sampleRecord sampleKey =
      Except.error CryptoError.authenticationError ∧
    decryptChaCha20 sampleRecord sampleKey = decrypt sampleRecord sampleKey :=
  ⟨rfl, decryptChaCha20_fallback sampleRecord sampleKey
    CryptoError.authenticationError rfl⟩

/-- A 33-byte all-zero buffer: not a valid sealed record under
`sampleKey`, so AES-GCM authentication rejects it. -/
def badRecord : List Nat := List.replicate 33 0

/-- A protected-metadata value whose private section carries `badRecord`. -/
def protMetaBad : GlitchGangMetadata :=
  { name := "Glitch Gang #1"
    symbol := "GG"
    description := ""
    attributes := [⟨"Background", "Cyber Haze"⟩]
    image := ""
    properties := []
    privateData := some
      { privacyLevel := "Light"
        encryptedAttributes := some badRecord
        timelineFragments := none
        vrmConfig := none } }

/-- **C2, counterexample.** The claim says a rejected record surfaces a
typed AuthenticationError and the still-protected data is never silently
returned.  The Encryptor rejects `badRecord` under the client's key, yet
`decryptMetadata` catches the failure and returns the still-protected
input unchanged, surfacing nothing. -/
theorem decryptMetadata_swallows_failure_cex :
    decrypt badRecord sampleClient.encryptionKey =
      Except.error CryptoError.authenticationError ∧
    decryptMetadata sampleClient protMetaBad = protMetaBad := by
  constructor
  · rfl
  · rfl

/-- **C2, amended.** Whenever the Encryptor rejects the sealed record of a
protected bundle, `decryptMetadata` catches the `AuthenticationError` and
returns the still-protected input metadata unchanged; no error reaches
the caller. -/
theorem decryptMetadata_returns_input_on_failure (c : Client)
    (pm : GlitchGangMetadata) (pd : PrivateData) (enc : List Nat)
    (hpd : pm.privateData = some pd) (henc : pd.encryptedAttributes = some enc)
    (herr : decrypt enc c.encryptionKey =
      Except.error CryptoError.authenticationError) :
    decryptMetadata c pm = pm := by
  simp [decryptMetadata, hpd, henc, herr]

/-- Witness for the amended C2 at the concrete rejected record. -/
theorem decryptMetadata_returns_input_on_failure_witness :
    protMetaBad.privateData = some
      { privacyLevel := "Light"
        encryptedAttributes := some badRecord
        timelineFragments := none
        vrmConfig := none } ∧
    decryptMetadata sampleClient protMetaBad = protMetaBad :=
  ⟨rfl, decryptMetadata_returns_input_on_failure sampleClient protMetaBad
    { privacyLevel := "Light"
      encryptedAttributes := some badRecord
      timelineFragments := none
      vrmConfig := none } badRecord rfl rfl rfl⟩

/-- Helper shared by C8 and C1: when no attribute is classified sensitive,
`protectMetadata` is the identity — public attributes pass through in
original order, and neither a sealed record nor a tier marker is attached
(the `privateData` field is left exactly as on the input). -/
theorem protectMetadata_of_no_sensitive (c : Client)
    (meta : GlitchGangMetadata) (lvl : PrivacyLevel) (iv : List Nat)
    (h : meta.attributes.filter
      (fun a => (getSensitiveAttributes lvl).contains a.trait_type) = []) :
    protectMetadata c meta lvl iv = meta := by
  have hall := List.filter_eq_nil_iff.mp h
  have hpub : meta.attributes.filter
      (fun a => !(getSensitiveAttributes lvl).contains a.trait_type) =
      meta.attributes :=
    List.filter_eq_self.mpr (by simpa using hall)
  simp only [protectMetadata, h, hpub, List.length_nil, gt_iff_lt,
    Nat.lt_irrefl, if_false]

/-- A bundle with no sensitive categories and no pre-existing private
section, used by C8. -/
def metaPublicOnly : GlitchGangMetadata :=
  { name := "Glitch Gang #2"
    symbol := "GG"
    description := ""
    attributes := [⟨"Background", "Cyber Haze"⟩]
    image := ""
    properties := []
    privateData := none }

/-- **C8, counterexample.** The claim says that with an empty private
subsequence `protectMetadata` still attaches the tier marker.  At tier
Light on a bundle with only a `Background` attribute the private part is
empty, and the result carries no `privateData` section at all — no tier
marker is attached. -/
theorem protectMetadata_no_tier_marker_cex :
    (protectMetadata sampleClient metaPublicOnly PrivacyLevel.light
      sampleIv).privateData = none := by
  rfl

/-- **C8, amended.** If the private subsequence selected by the classifier
is empty, `protectMetadata` attaches neither a sealed record nor a tier
marker: the whole metadata — attributes in original order and the
untouched `privateData` field included — passes through unchanged. -/
theorem protectMetadata_empty_private (c : Client)
    (meta : GlitchGangMetadata) (lvl : PrivacyLevel) (iv : List Nat)
    (h : meta.attributes.filter
      (fun a => (getSensitiveAttributes lvl).contains a.trait_type) = []) :
    protectMetadata c meta lvl iv = meta ∧
    (protectMetadata c meta lvl iv).privateData = meta.privateData ∧
    (protectMetadata c meta lvl iv).attributes = meta.attributes := by
  have hid := protectMetadata_of_no_sensitive c meta lvl iv h
  exact ⟨hid, by rw [hid], by rw [hid]⟩

/-- Witness for the amended C8 on the all-public bundle at tier Light. -/
theorem protectMetadata_empty_private_witness :
    metaPublicOnly.attributes.filter
      (fun a => (getSensitiveAttributes PrivacyLevel.light).contains
        a.trait_type) = [] ∧
    protectMetadata sampleClient metaPublicOnly PrivacyLevel.light sampleIv =
      metaPublicOnly :=
  ⟨by decide, (protectMetadata_empty_private sampleClient metaPublicOnly
    PrivacyLevel.light sampleIv (by decide)).1⟩

/-- **C1.** Revealing a protected bundle under the protecting key recovers
every attribute: the result is the public subsequence in its original
order followed by the private subsequence in its original order, and as a
multiset it equals the input bundle's attributes.  The IV is the 16-byte
random nonce drawn inside `encrypt`; the bundle is a fresh one carrying no
pre-existing private section. -/
theorem protect_reveal_roundtrip (c : Client) (meta : GlitchGangMetadata)
    (lvl : PrivacyLevel) (iv : List Nat) (hiv : iv.length = 16)
    (hpd : meta.privateData = none) :
    (decryptMetadata c (protectMetadata c meta lvl iv)).attributes =
      meta.attributes.filter
        (fun a => !(getSensitiveAttributes lvl).contains a.trait_type) ++
      meta.attributes.filter
        (fun a => (getSensitiveAttributes lvl).contains a.trait_type) ∧
    List.Perm (decryptMetadata c (protectMetadata c meta lvl iv)).attributes
      meta.attributes := by
  have hmain : (decryptMetadata c (protectMetadata c meta lvl iv)).attributes =
      meta.attributes.filter
        (fun a => !(getSensitiveAttributes lvl).contains a.trait_type) ++
      meta.attributes.filter
        (fun a => (getSensitiveAttributes lvl).contains a.trait_type) := by
    by_cases hp : meta.attributes.filter
        (fun a => (getSensitiveAttributes lvl).contains a.trait_type) = []
    · rw [protectMetadata_of_no_sensitive c meta lvl iv hp, hp,
        List.append_nil]
      have hall := List.filter_eq_nil_iff.mp hp
      rw [List.filter_eq_self.mpr (by simpa using hall)]
      simp [decryptMetadata, hpd]
    · have hprot : protectMetadata c meta lvl iv =
          { meta with
            attributes := meta.attributes.filter
              (fun a => !(getSensitiveAttributes lvl).contains a.trait_type)
            privateData := some
              { privacyLevel := lvl.levelName
                encryptedAttributes := some (encrypt
                  (jsonStringifyAttrs (meta.attributes.filter
                    (fun a => (getSensitiveAttributes lvl).contains
                      a.trait_type))) c.encryptionKey iv)
                timelineFragments := none
                vrmConfig := none } } := by
        simp only [protectMetadata]
        rw [if_pos (Nat.lt_of_lt_of_le (Nat.zero_lt_one)
          (Nat.one_le_iff_ne_zero.mpr
            (fun hz => hp (List.eq_nil_of_length_eq_zero hz))))]
      rw [hprot]
      simp only [decryptMetadata,
        decrypt_encrypt _ c.encryptionKey iv hiv, jsonParse_stringify]
  refine ⟨hmain, ?_⟩
  rw [hmain]
  exact List.Perm.trans List.perm_append_comm
    (List.filter_append_perm _ meta.attributes)

/-- The spec's protection scenario bundle: Background, Secret Code and
Agent Name. -/
def metaScenario : GlitchGangMetadata :=
  { name := "Glitch Gang #0"
    symbol := "GG"
    description := ""
    attributes := [⟨"Background", "Cyber Haze"⟩, ⟨"Secret Code", "GLITCH-1"⟩,
      ⟨"Agent Name", "Nav"⟩]
    image := ""
    properties := []
    privateData := none }

/-- Witness for C1 at the spec's scenario bundle, tier Light. -/
theorem protect_reveal_roundtrip_witness :
    sampleIv.length = 16 ∧ metaScenario.privateData = none ∧
    ((decryptMetadata sampleClient
        (protectMetadata sampleClient metaScenario PrivacyLevel.light
          sampleIv)).attributes =
      metaScenario.attributes.filter
        (fun a => !(getSensitiveAttributes PrivacyLevel.light).contains
          a.trait_type) ++
      metaScenario.attributes.filter
        (fun a => (getSensitiveAttributes PrivacyLevel.light).contains
          a.trait_type) ∧
    List.Perm (decryptMetadata sampleClient
        (protectMetadata sampleClient metaScenario PrivacyLevel.light
          sampleIv)).attributes metaScenario.attributes) :=
  ⟨rfl, rfl, protect_reveal_roundtrip sampleClient metaScenario
    PrivacyLevel.light sampleIv rfl rfl⟩

/-- Witness for C7: flipping bit 0 of byte 0 of the concrete sealed
record `sampleRecord` makes `decrypt` fail with AuthenticationError. -/
theorem decrypt_flip_witness :
    sampleIv.length = 16 ∧ (∀ b ∈ [7], b < 256) ∧
    (∀ b ∈ sampleIv, b < 256) ∧ (0 : Nat) < 8 ∧
    0 < (encrypt [7] sampleKey sampleIv).length ∧
    decrypt (flipBit (encrypt [7] sampleKey sampleIv) 0 0) sampleKey =
      Except.error CryptoError.authenticationError :=
  ⟨rfl, by decide, by decide, by decide,
    by rw [encrypt_length [7] sampleKey sampleIv rfl]; decide,
    decrypt_flip [7] sampleKey sampleIv 0 0 rfl (by decide) (by decide)
      (by decide) (by rw [encrypt_length [7] sampleKey sampleIv rfl]; decide)⟩

end QuantumVeil
